import Mathlib

/- Shallow embedding of the PersonalRailwayOpenclawTools repository:
   src/local_bridge/code_bridge_service.py (local code bridge) and
   src/drive_playground/drive_playground_service.py (Drive playground).
   Pure functions model the handlers; the external Drive store and the
   local shell are passed in as explicit parameters. -/

deriving instance DecidableEq for Except

/-- HTTP-level failures raised by the handlers: HTTPException with its
    status code, plus the RuntimeError raised by get_api_key, which the
    framework surfaces as a 500 server error. -/
inductive HErr where
  | badRequest : String → HErr
  | unauthorized : HErr
  | forbidden : String → HErr
  | notFound : String → HErr
  | conflict : String → HErr
  | badGateway : String → HErr
  | serverError : String → HErr
  | timeout : HErr
  deriving DecidableEq

/-- HTTP status code attached to each failure in the source. -/
def statusOf : HErr → Nat
  | HErr.badRequest _ => 400
  | HErr.unauthorized => 401
  | HErr.forbidden _ => 403
  | HErr.notFound _ => 404
  | HErr.conflict _ => 409
  | HErr.badGateway _ => 502
  | HErr.serverError _ => 500
  | HErr.timeout => 504

/-- Whitespace characters stripped by the Python str.strip method. -/
def pySpace (c : Char) : Bool :=
  c ∈ [' ', '\t', '\n', '\r', Char.ofNat 11, Char.ofNat 12]

/-- Model of str.strip on a character list: drop whitespace at both ends. -/
def pyStripChars (l : List Char) : List Char :=
  ((l.dropWhile pySpace).reverse.dropWhile pySpace).reverse

/-- Model of the Python str.strip method. -/
def pyStrip (s : String) : String := ⟨pyStripChars s.data⟩

/-- Model of the Python idiom `x or ""` on an optional string. -/
def orEmpty : Option String → String
  | none => ""
  | some a => a

/-- Boolean component-wise test that the second character list starts with
    the first one. -/
def charsBegin : List Char → List Char → Bool
  | [], _ => true
  | _ :: _, [] => false
  | a :: as, b :: bs => decide (a = b) && charsBegin as bs

/-- Model of the Python str.removeprefix method. -/
def pyRemovePrefix (s pre : String) : String :=
  if charsBegin pre.data s.data then ⟨s.data.drop pre.data.length⟩ else s

/-- Model of the Python str.lower method. -/
def pyLower (s : String) : String := ⟨s.data.map Char.toLower⟩

/-- Model of the Python str.lstrip method with argument "/". -/
def pyLstripSlash (s : String) : String :=
  ⟨s.data.dropWhile (fun c => decide (c = '/'))⟩

/-- Split a character list on the path separator, keeping empty pieces. -/
def splitSlashAux : List Char → List Char → List String
  | acc, [] => [⟨acc.reverse⟩]
  | acc, c :: rest =>
    if c = '/' then ⟨acc.reverse⟩ :: splitSlashAux [] rest
    else splitSlashAux (c :: acc) rest

/-- The single-dot path component. -/
def dotS : String := "."

/-- The parent-directory path component. -/
def dotdotS : String := ".."

/-- A canonical path component: not empty, not a dot, not a parent step. -/
def normalComp (c : String) : Prop := c ≠ "" ∧ c ≠ dotS ∧ c ≠ dotdotS

instance (c : String) : Decidable (normalComp c) := by
  unfold normalComp; infer_instance

/-- Components of the caller-supplied string, as pathlib parses it in
    resolve_safe_path: strip whitespace, treat blank input as the current
    directory, strip leading separators, split on the separator, drop the
    empty and single-dot pieces (PurePosixPath keeps only real components
    and the parent steps). -/
def relParts (relative_path : String) : List String :=
  if pyStrip relative_path = "" then []
  else
    (splitSlashAux [] (pyLstripSlash (pyStrip relative_path)).data).filter
      (fun c => decide (c ≠ "" ∧ c ≠ dotS))

/-- Lexical canonicalization of an absolute component list, as performed by
    Path.resolve on a symlink-free filesystem: skip empty and single-dot
    components, let a parent step pop the last kept component (the
    filesystem root is its own parent), keep everything else.  The
    accumulator holds the kept components in reverse. -/
def lexRes : List String → List String → List String
  | acc, [] => acc.reverse
  | acc, c :: rest =>
    if c = "" ∨ c = dotS then lexRes acc rest
    else if c = dotdotS then lexRes acc.tail rest
    else lexRes (c :: acc) rest

/-- Boolean component-wise test that the second component list starts with
    the first one; this is exactly what Path.relative_to decides. -/
def beginsWith : List String → List String → Bool
  | [], _ => true
  | _ :: _, [] => false
  | a :: as, b :: bs => decide (a = b) && beginsWith as bs

/-- Detail message of the confinement failure in resolve_safe_path. -/
def escapeMsg : String := "Path escapes project root"

/-- Model of resolve_safe_path from code_bridge_service.py: strip the
    input, treat it as root-relative (leading separators removed), join it
    with the canonical root, canonicalize the joined path, then require
    via relative_to that the result starts with the root components,
    raising a 400 confinement error otherwise. -/
def resolve_safe_path (root : List String) (relative_path : String) :
    Except HErr (List String) :=
  if beginsWith root (lexRes [] (root ++ relParts relative_path)) then
    Except.ok (lexRes [] (root ++ relParts relative_path))
  else Except.error (HErr.badRequest escapeMsg)

/-- Finite model of the Drive store consulted by is_under_playground: an
    association list from file identifiers to parent-identifier lists.  A
    lookup through the external collaborator succeeds exactly on listed
    identifiers; an identifier without an entry models a lookup failure
    (the exception branch in the source). -/
structure DriveGraph where
  entries : List (String × List String)

/-- Parent lookup: the files().get call with the parents field; none models
    the raised exception, some ps a successful lookup (meta.get with the
    `or []` default collapses an absent parents field into an empty list,
    so some [] is a successful lookup of a parentless file). -/
def parentsOf (g : DriveGraph) (fid : String) : Option (List String) :=
  (g.entries.find? (fun e => decide (e.1 = fid))).map (fun e => e.2)

/-- One parent edge: b is a parent of a, per a successful lookup. -/
def stepR (g : DriveGraph) (a b : String) : Prop :=
  ∃ ps, parentsOf g a = some ps ∧ b ∈ ps

/-- The node a is b itself or reaches b by following parent edges. -/
def Reaches (g : DriveGraph) (a b : String) : Prop :=
  Relation.ReflTransGen (stepR g) a b

/-- The while-loop of is_under_playground, with explicit fuel.  The head of
    the stack list is the element Python pops from the end of to_visit;
    extending with the not-yet-visited parents appends them, so pushing
    their reversal keeps the pop order.  The visited set is modelled as a
    list.  The loop answers some true when it pops the playground id,
    some false when the stack is exhausted or a parent lookup fails, and
    none only when the fuel runs out (shown below never to happen from the
    initial fuel). -/
def isUnderLoop (g : DriveGraph) (r : String) :
    Nat → List String → List String → Option Bool
  | _, _, [] => some false
  | 0, _, _ :: _ => none
  | fuel + 1, visited, fid :: rest =>
    if fid ∈ visited then isUnderLoop g r fuel visited rest
    else if fid = r then some true
    else
      match parentsOf g fid with
      | none => some false
      | some ps =>
        isUnderLoop g r fuel (fid :: visited)
          ((ps.filter (fun p => decide (p ∉ fid :: visited))).reverse ++ rest)

/-- Weight of one store entry: one loop visit plus its pushed parents. -/
def entryWeight (e : String × List String) : Nat := 1 + e.2.length

/-- Total weight of the entries not yet visited: a bound on the work the
    loop can still perform. -/
def pendingWeight (g : DriveGraph) (visited : List String) : Nat :=
  ((g.entries.filter (fun e => decide (e.1 ∉ visited))).map entryWeight).sum

/-- Fuel sufficient for the whole traversal from a single start node. -/
def initFuel (g : DriveGraph) : Nat := 1 + (g.entries.map entryWeight).sum

/-- Model of is_under_playground: run the traversal from the queried file
    with an empty visited set. -/
def is_under_playground (g : DriveGraph) (file_id playground_id : String) : Bool :=
  (isUnderLoop g playground_id (initFuel g) [] [file_id]).getD false

/-- Witness graph: a single file a whose only parent is the root r. -/
def gW1 : DriveGraph := ⟨[(("a"), ["r"])]⟩

/-- Witness graph: an empty store, so every parent lookup fails. -/
def gW2 : DriveGraph := ⟨[]⟩

/-- Witness graph: a two-node parent cycle that never reaches the root. -/
def gW3 : DriveGraph := ⟨[(("a"), ["b"]), (("b"), ["a"])]⟩

/-- Config-failure message of get_api_key in the local bridge. -/
def bridgeKeyMsg : String := "Set CODE_BRIDGE_API_KEY in the environment."

/-- Config-failure message of get_api_key in the Drive playground. -/
def driveKeyMsg : String := "Set DRIVE_PLAYGROUND_API_KEY in the environment."

/-- The prefix removed from the authorization header value. -/
def bearerPre : String := "Bearer "

/-- Model of get_api_key: read the configured secret from the environment
    (string-or-empty), strip it, and raise a RuntimeError (a 500 at the
    HTTP layer) when the result is blank.  Both services share this shape,
    differing only in the environment variable named by the message. -/
def get_api_key (cfgMsg : String) (envKey : Option String) : Except HErr String :=
  if pyStrip (orEmpty envKey) = "" then Except.error (HErr.serverError cfgMsg)
  else Except.ok (pyStrip (orEmpty envKey))

/-- The secret carried by the authorization header: the header value (or
    empty when absent), stripped, with one leading bearer prefix removed. -/
def bearerOf (authorization : Option String) : String :=
  pyRemovePrefix (pyStrip (orEmpty authorization)) bearerPre

/-- The Python expression `x_api_key or bearer`: the direct header when it
    is present and non-empty, else the bearer value. -/
def presentedKey (x_api_key authorization : Option String) : String :=
  match x_api_key with
  | some s => if s = "" then bearerOf authorization else s
  | none => bearerOf authorization

/-- Model of require_api_key, shared verbatim by both services: load the
    configured key (propagating the config failure), then reject with a
    401 unless the presented secret equals it exactly. -/
def require_api_key (cfgMsg : String)
    (envKey x_api_key authorization : Option String) : Except HErr Unit :=
  match get_api_key cfgMsg envKey with
  | Except.error e => Except.error e
  | Except.ok key =>
    if presentedKey x_api_key authorization = key then Except.ok ()
    else Except.error HErr.unauthorized

/-- Values of CODE_BRIDGE_ALLOW_RUN that enable the run capability. -/
def allowVals : List String := ["1", "true", "yes"]

/-- Model of allow_run: the flag, stripped and lowercased, must be one of
    the enabling values. -/
def allow_run (envAllow : Option String) : Bool :=
  decide (pyLower (pyStrip (orEmpty envAllow)) ∈ allowVals)

/-- Outcome of the subprocess.run call: completion with captured output
    and exit status, the TimeoutExpired exception, or another failure. -/
inductive ExecOutcome where
  | completed : String → String → Int → ExecOutcome
  | timedOut : ExecOutcome
  | failed : String → ExecOutcome
  deriving DecidableEq

/-- Request body of POST /run (cwd defaults to the empty string). -/
structure RunBody where
  command : String
  cwd : String
  deriving DecidableEq

/-- Response of POST /run: captured stdout, stderr and exit status. -/
structure RunResult where
  stdout : String
  stderr : String
  returncode : Int
  deriving DecidableEq

/-- Environment of the local bridge service: configured secret, canonical
    project root, run flag, the filesystem directory test, and the shell
    as a function from command and working directory to an outcome. -/
structure BridgeEnv where
  apiKey : Option String
  root : List String
  allowRunFlag : Option String
  isDir : List String → Bool
  exec : String → List String → ExecOutcome

/-- Detail message when the run capability is disabled. -/
def runDisabledMsg : String := "CODE_BRIDGE_ALLOW_RUN is not set; run is disabled."

/-- Detail message when the cwd override is not a directory. -/
def cwdNotDirMsg : String := "cwd is not a directory"

/-- Model of the run_command handler: authenticate, check the run flag,
    confine the working directory (the root by default, an override must
    pass resolve_safe_path and be a directory), then run the command and
    report its stdout, stderr and exit status verbatim; a timeout becomes
    a 504 and any other execution failure a 500. -/
def run_command (env : BridgeEnv) (body : RunBody)
    (x_api_key authorization : Option String) : Except HErr RunResult :=
  match require_api_key bridgeKeyMsg env.apiKey x_api_key authorization with
  | Except.error e => Except.error e
  | Except.ok _ =>
    if allow_run env.allowRunFlag = false then
      Except.error (HErr.forbidden runDisabledMsg)
    else
      match
        (if pyStrip body.cwd = "" then Except.ok env.root
         else
           match resolve_safe_path env.root body.cwd with
           | Except.error e => Except.error e
           | Except.ok c =>
             if env.isDir c then Except.ok c
             else Except.error (HErr.badRequest cwdNotDirMsg)) with
      | Except.error e => Except.error e
      | Except.ok cwd =>
        match env.exec body.command cwd with
        | ExecOutcome.completed o e c => Except.ok ⟨o, e, c⟩
        | ExecOutcome.timedOut => Except.error HErr.timeout
        | ExecOutcome.failed m => Except.error (HErr.serverError m)

/-- Google native application content type: document. -/
def gDocMime : String := "application/vnd.google-apps.document"

/-- Google native application content type: spreadsheet. -/
def gSheetMime : String := "application/vnd.google-apps.spreadsheet"

/-- Google native application content type: presentation. -/
def gSlideMime : String := "application/vnd.google-apps.presentation"

/-- The content types for which an empty native placeholder is allowed. -/
def GOOGLE_APP_MIME_TYPES : List String := [gDocMime, gSheetMime, gSlideMime]

/-- Request body of the Drive POST /write (mime_type defaults to
    text/plain at the HTTP layer; the model takes it explicitly). -/
structure WriteBody where
  name : String
  content : Option String
  file_url : Option String
  mime_type : String
  folder_id : Option String
  deriving DecidableEq

/-- A prepared upload body: fetched from a URL or encoded inline text. -/
inductive Media where
  | fromUrl : String → Media
  | fromText : String → Media
  deriving DecidableEq

/-- Mutating Drive calls issued by the write handler, in order: the
    metadata update, the media update, or the create call. -/
inductive DriveEffect where
  | updateMeta : String → String → String → DriveEffect
  | updateMedia : String → Media → DriveEffect
  | createFile : String → String → String → Option Media → DriveEffect
  deriving DecidableEq

/-- Successful response of the Drive write handler. -/
structure WriteOk where
  id : String
  action : String
  deriving DecidableEq

/-- Environment of the Drive playground service: configured secret, the
    parent-link store, the resolved playground folder id, the same-name
    existence query (folder id and name to matching file id), whether a
    fetch of a URL succeeds, and the id Drive assigns to a created file. -/
structure DriveEnv where
  apiKey : Option String
  graph : DriveGraph
  playgroundId : String
  existing : String → String → Option String
  fetchOk : String → Bool
  createdId : String

/-- Detail message when no content source is supplied and the content type
    has no empty-placeholder exemption. -/
def provideMsg : String :=
  "Provide content (text), file_url (binary), or use mime_type Google Doc/Sheet/Slide for an empty file."

/-- Detail message when both content sources are supplied. -/
def onlyOneMsg : String := "Provide only one of content or file_url, not both."

/-- Detail message of the folder confinement failure. -/
def notInPlaygroundMsg : String :=
  "Folder is not the Playground root or inside it. Use a folder ID from drive_playground_list."

/-- Detail message of the write conflict. -/
def conflictMsg : String :=
  "A file with this name already exists. Provide content or file_url to update."

/-- Detail message when fetching file_url fails. -/
def fetchFailMsg : String := "Failed to fetch file_url"

/-- Action string reported for an update. -/
def updatedStr : String := "updated"

/-- Action string reported for a create. -/
def createdStr : String := "created"

/-- The target folder: the stripped folder_id when non-blank, else the
    playground root (the Python `(body.folder_id or "").strip() or
    playground_id`). -/
def parentOf (env : DriveEnv) (body : WriteBody) : String :=
  if pyStrip (orEmpty body.folder_id) = "" then env.playgroundId
  else pyStrip (orEmpty body.folder_id)

/-- The has_file_url flag: the stripped file_url is non-blank. -/
def hasUrlB (body : WriteBody) : Bool :=
  decide (pyStrip (orEmpty body.file_url) ≠ "")

/-- The empty_google_app flag: a native-application content type with no
    content and no file_url supplied. -/
def emptyAppB (body : WriteBody) : Bool :=
  decide (body.mime_type ∈ GOOGLE_APP_MIME_TYPES)
    && !body.content.isSome && !(hasUrlB body)

/-- Media preparation in the write handler: the truthiness test
    `if body.file_url:` uses the raw, unstripped value; a truthy URL is
    fetched (a failure is a 502), otherwise inline content is encoded,
    otherwise no media is built (the empty-placeholder path). -/
def mediaOf (body : WriteBody) (fetchOk : String → Bool) :
    Except HErr (Option Media) :=
  match body.file_url with
  | some u =>
    if u = "" then
      if body.content.isSome then
        Except.ok (some (Media.fromText (orEmpty body.content)))
      else Except.ok none
    else if fetchOk u then Except.ok (some (Media.fromUrl u))
    else Except.error (HErr.badGateway fetchFailMsg)
  | none =>
    if body.content.isSome then
      Except.ok (some (Media.fromText (orEmpty body.content)))
    else Except.ok none

/-- Model of the Drive write_file handler, in source order: the two body
    shape validations, then authentication, then folder confinement, then
    media preparation, then the same-name existence check deciding
    create-versus-update (a no-media update attempt is a 409 conflict).
    Alongside the response it returns the list of mutating Drive calls
    performed, so unmodified state is visible as an empty list. -/
def drive_write_file (env : DriveEnv) (body : WriteBody)
    (x_api_key authorization : Option String) :
    Except HErr WriteOk × List DriveEffect :=
  if !body.content.isSome && !(hasUrlB body) && !(emptyAppB body) then
    (Except.error (HErr.badRequest provideMsg), [])
  else if body.content.isSome && hasUrlB body then
    (Except.error (HErr.badRequest onlyOneMsg), [])
  else
    match require_api_key driveKeyMsg env.apiKey x_api_key authorization with
    | Except.error e => (Except.error e, [])
    | Except.ok _ =>
      if parentOf env body ≠ env.playgroundId
          ∧ is_under_playground env.graph (parentOf env body) env.playgroundId
              = false then
        (Except.error (HErr.forbidden notInPlaygroundMsg), [])
      else
        match mediaOf body env.fetchOk with
        | Except.error e => (Except.error e, [])
        | Except.ok media =>
          match env.existing (parentOf env body) body.name with
          | some fid =>
            match media with
            | none => (Except.error (HErr.conflict conflictMsg), [])
            | some m =>
              (Except.ok ⟨fid, updatedStr⟩,
                [DriveEffect.updateMeta fid body.name body.mime_type,
                  DriveEffect.updateMedia fid m])
          | none =>
            (Except.ok ⟨env.createdId, createdStr⟩,
              [DriveEffect.createFile body.name body.mime_type
                (parentOf env body) media])

/-- Spec-side predicate (following the words of the write contract): the
    request supplies inline text content. -/
def suppliesContent (body : WriteBody) : Prop := body.content.isSome = true

/-- Spec-side predicate (following the words of the write contract): the
    request supplies a remote-fetch URL (non-blank after stripping). -/
def suppliesUrl (body : WriteBody) : Prop :=
  pyStrip (orEmpty body.file_url) ≠ ""

/-- Spec-side classification (following the words of the write contract):
    exactly one of inline content, a fetch URL, or neither with a
    native-application content type. -/
def validShapeSpec (body : WriteBody) : Prop :=
  (suppliesContent body ∧ ¬ suppliesUrl body)
  ∨ (¬ suppliesContent body ∧ suppliesUrl body)
  ∨ (¬ suppliesContent body ∧ ¬ suppliesUrl body
      ∧ body.mime_type ∈ GOOGLE_APP_MIME_TYPES)

instance (body : WriteBody) : Decidable (validShapeSpec body) := by
  unfold validShapeSpec suppliesContent suppliesUrl
  infer_instance

/-- Witness Drive environment with an empty target folder. -/
def envW : DriveEnv :=
  ⟨some ("secret"), gW2, ("pg"), fun _ _ => none, fun _ => true, ("newid")⟩

/-- Witness Drive environment whose target folder already holds a
    same-name file f1. -/
def envW8 : DriveEnv :=
  ⟨some ("secret"), gW2, ("pg"), fun _ _ => some ("f1"), fun _ => true, ("newid")⟩

/-- Witness write body supplying both content sources. -/
def bodyBoth : WriteBody :=
  ⟨("a.txt"), some ("x"), some ("http://e"), ("text/plain"), none⟩

/-- Witness write body supplying inline content only. -/
def bodyInline : WriteBody :=
  ⟨("a.txt"), some ("x"), none, ("text/plain"), none⟩

/-- Witness write body supplying no content source with a plain content
    type. -/
def bodyNoSrc : WriteBody := ⟨("a.txt"), none, none, ("text/plain"), none⟩

/-- Witness write body supplying no content source with the document
    content type. -/
def bodyDoc : WriteBody := ⟨("a.txt"), none, none, gDocMime, none⟩

/-- Witness bridge environment with no configured secret. -/
def envNoKey : BridgeEnv :=
  ⟨none, ["srv", "proj"], some ("1"), fun _ => true,
    fun _ _ => ExecOutcome.completed ("") ("") 0⟩

/-- Witness bridge environment with run enabled and a shell that reports
    output hi and exit status 3. -/
def envRun : BridgeEnv :=
  ⟨some ("k"), ["srv", "proj"], some ("1"), fun _ => true,
    fun _ _ => ExecOutcome.completed ("hi") ("") 3⟩

/-- Witness bridge environment with the run flag unset. -/
def envRunOff : BridgeEnv :=
  ⟨some ("k"), ["srv", "proj"], none, fun _ => true,
    fun _ _ => ExecOutcome.completed ("hi") ("") 0⟩

/-- Witness run body with no cwd override. -/
def bodyRun : RunBody := ⟨("echo hi"), ("")⟩

lemma beginsWith_iff (p : List String) :
    ∀ l, beginsWith p l = true ↔ ∃ t, l = p ++ t := by
  induction p with
  | nil =>
    intro l
    simp [beginsWith]
  | cons a as ih =>
    intro l
    cases l with
    | nil =>
      simp [beginsWith]
    | cons b bs =>
      simp only [beginsWith, Bool.and_eq_true, decide_eq_true_eq, ih]
      constructor
      · rintro ⟨rfl, t, rfl⟩
        exact ⟨t, rfl⟩
      · rintro ⟨t, h⟩
        rw [List.cons_append] at h
        injection h with h1 h2
        exact ⟨h1.symm, t, h2⟩

lemma lexRes_all_normal (l : List String) (h : ∀ c ∈ l, normalComp c) :
    ∀ acc, lexRes acc l = acc.reverse ++ l := by
  induction l with
  | nil =>
    intro acc
    simp [lexRes]
  | cons c rest ih =>
    intro acc
    have hc : normalComp c := h c (List.mem_cons_self c rest)
    have hrest : ∀ x ∈ rest, normalComp x :=
      fun x hx => h x (List.mem_cons_of_mem c hx)
    unfold lexRes
    rw [if_neg, if_neg]
    · rw [ih hrest (c :: acc)]
      simp
    · exact hc.2.2
    · rintro (h1 | h2)
      · exact hc.1 h1
      · exact hc.2.1 h2

lemma lexRes_mem_normal (l : List String) :
    ∀ acc, (∀ c ∈ acc, normalComp c) → ∀ c ∈ lexRes acc l, normalComp c := by
  induction l with
  | nil =>
    intro acc hacc c hc
    simp only [lexRes, List.mem_reverse] at hc
    exact hacc c hc
  | cons c rest ih =>
    intro acc hacc x hx
    unfold lexRes at hx
    by_cases h1 : c = "" ∨ c = dotS
    · rw [if_pos h1] at hx
      exact ih acc hacc x hx
    · rw [if_neg h1] at hx
      by_cases h2 : c = dotdotS
      · rw [if_pos h2] at hx
        exact ih acc.tail (fun y hy => hacc y (List.mem_of_mem_tail hy)) x hx
      · rw [if_neg h2] at hx
        refine ih (c :: acc) ?_ x hx
        intro y hy
        rcases List.mem_cons.mp hy with rfl | hy
        · exact ⟨fun e => h1 (Or.inl e), fun e => h1 (Or.inr e), h2⟩
        · exact hacc y hy

lemma relParts_no_empty_dot (input : String) :
    ∀ c ∈ relParts input, c ≠ "" ∧ c ≠ dotS := by
  intro c hc
  unfold relParts at hc
  split at hc
  · exact absurd hc (List.not_mem_nil c)
  · have := List.of_mem_filter hc
    exact of_decide_eq_true this

/-- Claim C1: for every caller-supplied path string, resolve_safe_path on a
    canonical root either returns a canonical location whose components
    begin with exactly the root components (the root or a descendant), or
    fails with the confinement error; acceptance holds exactly when the
    canonicalization of the joined path stays within the root, and every
    input free of parent steps is accepted with its canonical location. -/
theorem claim_C1_boundary_resolver (root : List String)
    (hroot : ∀ c ∈ root, normalComp c) (input : String) :
    (∀ r, resolve_safe_path root input = Except.ok r →
        (∃ t, r = root ++ t) ∧ (∀ c ∈ r, normalComp c))
    ∧ ((∃ r, resolve_safe_path root input = Except.ok r) ↔
        beginsWith root (lexRes [] (root ++ relParts input)) = true)
    ∧ ((∀ c ∈ relParts input, c ≠ dotdotS) →
        resolve_safe_path root input = Except.ok (root ++ relParts input)) := by
  refine ⟨?_, ?_, ?_⟩
  · intro r hr
    unfold resolve_safe_path at hr
    split at hr
    · rename_i hguard
      injection hr with hr
      subst hr
      constructor
      · exact (beginsWith_iff root _).mp hguard
      · exact lexRes_mem_normal _ [] (by intro c hc; exact absurd hc (List.not_mem_nil c))
    · exact absurd hr (by intro h; cases h)
  · unfold resolve_safe_path
    split
    · rename_i hguard
      exact ⟨fun _ => hguard, fun _ => ⟨_, rfl⟩⟩
    · rename_i hguard
      constructor
      · rintro ⟨r, hr⟩
        cases hr
      · intro h
        exact absurd h hguard
  · intro hdd
    have hrel : ∀ c ∈ relParts input, normalComp c := by
      intro c hc
      rcases relParts_no_empty_dot input c hc with ⟨h1, h2⟩
      exact ⟨h1, h2, hdd c hc⟩
    have hall : ∀ c ∈ root ++ relParts input, normalComp c := by
      intro c hc
      rcases List.mem_append.mp hc with h | h
      · exact hroot c h
      · exact hrel c h
    have hres : lexRes [] (root ++ relParts input) = root ++ relParts input := by
      have := lexRes_all_normal _ hall []
      simpa using this
    unfold resolve_safe_path
    rw [hres, if_pos ((beginsWith_iff root _).mpr ⟨relParts input, rfl⟩)]

/-- Witness for claim C1 at the root srv/proj: a plain relative file is
    accepted at its canonical location, and a parent-step escape is
    rejected with the confinement error. -/
theorem claim_C1_witness :
    resolve_safe_path ["srv", "proj"] ("docs/a.txt") =
      Except.ok (["srv", "proj", "docs", "a.txt"])
    ∧ resolve_safe_path ["srv", "proj"] ("../../etc/passwd") =
      Except.error (HErr.badRequest escapeMsg) := by
  constructor
  · have h := (claim_C1_boundary_resolver (["srv", "proj"]) (by decide)
      ("docs/a.txt")).2.2 (by decide)
    exact h.trans (by decide)
  · decide

lemma isUnderLoop_nil (g : DriveGraph) (r : String) (fuel : Nat)
    (visited : List String) :
    isUnderLoop g r fuel visited [] = some false := by
  cases fuel <;> rfl

lemma isUnderLoop_zero_cons (g : DriveGraph) (r fid : String)
    (visited rest : List String) :
    isUnderLoop g r 0 visited (fid :: rest) = none := rfl

lemma isUnderLoop_cons (g : DriveGraph) (r fid : String) (fuel : Nat)
    (visited rest : List String) :
    isUnderLoop g r (fuel + 1) visited (fid :: rest) =
      if fid ∈ visited then isUnderLoop g r fuel visited rest
      else if fid = r then some true
      else
        match parentsOf g fid with
        | none => some false
        | some ps =>
          isUnderLoop g r fuel (fid :: visited)
            ((ps.filter (fun p => decide (p ∉ fid :: visited))).reverse ++ rest) := rfl

lemma sumW_filter_mono (p q : (String × List String) → Bool)
    (h : ∀ e, q e = true → p e = true) :
    ∀ l : List (String × List String),
      ((l.filter q).map entryWeight).sum ≤ ((l.filter p).map entryWeight).sum := by
  intro l
  induction l with
  | nil => simp
  | cons e t ih =>
    simp only [List.filter_cons]
    by_cases hq : q e = true
    · rw [if_pos hq, if_pos (h e hq)]
      simp only [List.map_cons, List.sum_cons]
      omega
    · rw [if_neg hq]
      by_cases hp : p e = true
      · rw [if_pos hp]
        simp only [List.map_cons, List.sum_cons]
        omega
      · rw [if_neg hp]
        exact ih

lemma pw_drop_aux (fid : String) (visited : List String) (hfv : fid ∉ visited) :
    ∀ (l : List (String × List String)) (e₀ : String × List String),
      e₀ ∈ l → e₀.1 = fid →
      ((l.filter (fun e => decide (e.1 ∉ fid :: visited))).map entryWeight).sum
          + entryWeight e₀ ≤
        ((l.filter (fun e => decide (e.1 ∉ visited))).map entryWeight).sum := by
  have himp : ∀ e : String × List String,
      decide (e.1 ∉ fid :: visited) = true → decide (e.1 ∉ visited) = true := by
    intro e he
    simp only [decide_eq_true_eq, List.mem_cons, not_or] at he ⊢
    exact he.2
  intro l
  induction l with
  | nil =>
    intro e₀ h
    exact absurd h (List.not_mem_nil e₀)
  | cons e t ih =>
    intro e₀ hmem hkey
    simp only [List.filter_cons]
    rcases List.mem_cons.mp hmem with heq | hmem
    · subst heq
      have hnew : ¬ (decide (e₀.1 ∉ fid :: visited) = true) := by
        simp [hkey]
      have hold : decide (e₀.1 ∉ visited) = true := by
        simp [hkey, hfv]
      rw [if_neg hnew, if_pos hold]
      simp only [List.map_cons, List.sum_cons]
      have := sumW_filter_mono _ _ himp t
      omega
    · by_cases hek : e.1 = fid
      · have hnew : ¬ (decide (e.1 ∉ fid :: visited) = true) := by
          simp [hek]
        have hold : decide (e.1 ∉ visited) = true := by
          simp [hek, hfv]
        rw [if_neg hnew, if_pos hold]
        simp only [List.map_cons, List.sum_cons]
        have := ih e₀ hmem hkey
        omega
      · by_cases hev : e.1 ∈ visited
        · have hnew : ¬ (decide (e.1 ∉ fid :: visited) = true) := by
            simp [List.mem_cons, hev]
          have hold : ¬ (decide (e.1 ∉ visited) = true) := by
            simp [hev]
          rw [if_neg hnew, if_neg hold]
          exact ih e₀ hmem hkey
        · have hnew : decide (e.1 ∉ fid :: visited) = true := by
            simp [List.mem_cons, hev, hek]
          have hold : decide (e.1 ∉ visited) = true := by
            simp [hev]
          rw [if_pos hnew, if_pos hold]
          simp only [List.map_cons, List.sum_cons]
          have := ih e₀ hmem hkey
          omega

lemma pendingWeight_drop (g : DriveGraph) (fid : String) (visited : List String)
    (hfv : fid ∉ visited) (ps : List String) (hps : parentsOf g fid = some ps) :
    pendingWeight g (fid :: visited) + (1 + ps.length) ≤ pendingWeight g visited := by
  obtain ⟨e₀, hfind⟩ :
      ∃ e₀, g.entries.find? (fun e => decide (e.1 = fid)) = some e₀ := by
    unfold parentsOf at hps
    cases hf : g.entries.find? (fun e => decide (e.1 = fid)) with
    | none => rw [hf] at hps; cases hps
    | some e => exact ⟨e, rfl⟩
  have hmem : e₀ ∈ g.entries := List.mem_of_find?_eq_some hfind
  have hkey : e₀.1 = fid := by
    have := List.find?_some hfind
    simpa using this
  have hsnd : e₀.2 = ps := by
    unfold parentsOf at hps
    rw [hfind] at hps
    simpa using hps
  have hw : entryWeight e₀ = 1 + ps.length := by
    rw [entryWeight, hsnd]
  have := pw_drop_aux fid visited hfv g.entries e₀ hmem hkey
  unfold pendingWeight
  omega

lemma pendingWeight_nil (g : DriveGraph) :
    pendingWeight g [] = (g.entries.map entryWeight).sum := by
  unfold pendingWeight
  congr 1
  congr 1
  apply List.filter_eq_self.mpr
  intro e _
  simp

lemma isUnderLoop_isSome (g : DriveGraph) (r : String) :
    ∀ (fuel : Nat) (visited stack : List String),
      stack.length + pendingWeight g visited ≤ fuel →
      ∃ b, isUnderLoop g r fuel visited stack = some b := by
  intro fuel
  induction fuel with
  | zero =>
    intro visited stack hb
    cases stack with
    | nil => exact ⟨false, isUnderLoop_nil g r 0 visited⟩
    | cons fid rest =>
      simp only [List.length_cons] at hb
      omega
  | succ fuel ih =>
    intro visited stack hb
    cases stack with
    | nil => exact ⟨false, isUnderLoop_nil g r _ visited⟩
    | cons fid rest =>
      rw [isUnderLoop_cons]
      by_cases hv : fid ∈ visited
      · rw [if_pos hv]
        refine ih visited rest ?_
        simp only [List.length_cons] at hb
        omega
      · rw [if_neg hv]
        by_cases hr : fid = r
        · rw [if_pos hr]
          exact ⟨true, rfl⟩
        · rw [if_neg hr]
          cases hps : parentsOf g fid with
          | none => exact ⟨false, rfl⟩
          | some ps =>
            have hdrop := pendingWeight_drop g fid visited hv ps hps
            have hflt : (ps.filter (fun p => decide (p ∉ fid :: visited))).length
                ≤ ps.length := List.length_filter_le _ _
            refine ih _ _ ?_
            simp only [List.length_append, List.length_reverse, List.length_cons] at hb ⊢
            omega

lemma isUnderLoop_true_reaches (g : DriveGraph) (n r : String) :
    ∀ (fuel : Nat) (visited stack : List String),
      (∀ x ∈ stack, Reaches g n x) →
      isUnderLoop g r fuel visited stack = some true →
      Reaches g n r := by
  intro fuel
  induction fuel with
  | zero =>
    intro visited stack hs h
    cases stack with
    | nil => rw [isUnderLoop_nil] at h; cases h
    | cons fid rest => rw [isUnderLoop_zero_cons] at h; cases h
  | succ fuel ih =>
    intro visited stack hs h
    cases stack with
    | nil => rw [isUnderLoop_nil] at h; cases h
    | cons fid rest =>
      rw [isUnderLoop_cons] at h
      by_cases hv : fid ∈ visited
      · rw [if_pos hv] at h
        exact ih visited rest (fun x hx => hs x (List.mem_cons_of_mem _ hx)) h
      · rw [if_neg hv] at h
        by_cases hr : fid = r
        · subst hr
          exact hs fid (List.mem_cons_self _ _)
        · rw [if_neg hr] at h
          cases hps : parentsOf g fid with
          | none => rw [hps] at h; cases h
          | some ps =>
            rw [hps] at h
            refine ih _ _ ?_ h
            intro x hx
            rcases List.mem_append.mp hx with hx | hx
            · have hxps : x ∈ ps := List.mem_of_mem_filter (List.mem_reverse.mp hx)
              exact Relation.ReflTransGen.tail
                (hs fid (List.mem_cons_self _ _)) ⟨ps, hps, hxps⟩
            · exact hs x (List.mem_cons_of_mem _ hx)

lemma reaches_mem_closed (g : DriveGraph) (V : List String)
    (hcl : ∀ v ∈ V, ∀ p, stepR g v p → p ∈ V) :
    ∀ a b, a ∈ V → Reaches g a b → b ∈ V := by
  intro a b ha h
  induction h with
  | refl => exact ha
  | tail _ h2 ih => exact hcl _ ih _ h2

lemma visited_closed_not_reaches (g : DriveGraph) (n r : String)
    (visited : List String)
    (hne : ∀ v ∈ visited, v ≠ r)
    (hcl : ∀ v ∈ visited, ∀ p, stepR g v p → p ∈ visited)
    (hnv : n ∈ visited) : ¬ Reaches g n r := fun hreach =>
  hne r (reaches_mem_closed g visited hcl n r hnv hreach) rfl

lemma isUnderLoop_false_not_reaches (g : DriveGraph) (n r : String)
    (htot : ∀ x, Reaches g n x → x ≠ r → (parentsOf g x).isSome = true) :
    ∀ (fuel : Nat) (visited stack : List String),
      (∀ x ∈ stack, Reaches g n x) →
      (∀ v ∈ visited, v ≠ r) →
      (∀ v ∈ visited, ∀ p, stepR g v p → p ∈ visited ∨ p ∈ stack) →
      (n ∈ visited ∨ n ∈ stack) →
      isUnderLoop g r fuel visited stack = some false →
      ¬ Reaches g n r := by
  intro fuel
  induction fuel with
  | zero =>
    intro visited stack hs hne hcl hn h
    cases stack with
    | nil =>
      refine visited_closed_not_reaches g n r visited hne ?_ ?_
      · intro v hv2 p hp
        rcases hcl v hv2 p hp with h2 | h2
        · exact h2
        · exact absurd h2 (List.not_mem_nil p)
      · rcases hn with h1 | h1
        · exact h1
        · exact absurd h1 (List.not_mem_nil n)
    | cons fid rest => rw [isUnderLoop_zero_cons] at h; cases h
  | succ fuel ih =>
    intro visited stack hs hne hcl hn h
    cases stack with
    | nil =>
      refine visited_closed_not_reaches g n r visited hne ?_ ?_
      · intro v hv2 p hp
        rcases hcl v hv2 p hp with h2 | h2
        · exact h2
        · exact absurd h2 (List.not_mem_nil p)
      · rcases hn with h1 | h1
        · exact h1
        · exact absurd h1 (List.not_mem_nil n)
    | cons fid rest =>
      rw [isUnderLoop_cons] at h
      by_cases hvm : fid ∈ visited
      · rw [if_pos hvm] at h
        refine ih visited rest (fun x hx => hs x (List.mem_cons_of_mem _ hx))
          hne ?_ ?_ h
        · intro v hv2 p hp
          rcases hcl v hv2 p hp with h2 | h2
          · exact Or.inl h2
          · rcases List.mem_cons.mp h2 with rfl | h3
            · exact Or.inl hvm
            · exact Or.inr h3
        · rcases hn with h1 | h1
          · exact Or.inl h1
          · rcases List.mem_cons.mp h1 with rfl | h2
            · exact Or.inl hvm
            · exact Or.inr h2
      · rw [if_neg hvm] at h
        by_cases hr : fid = r
        · rw [if_pos hr] at h
          cases h
        · rw [if_neg hr] at h
          have hfr : Reaches g n fid := hs fid (List.mem_cons_self _ _)
          cases hps : parentsOf g fid with
          | none =>
            have := htot fid hfr hr
            rw [hps] at this
            cases this
          | some ps =>
            rw [hps] at h
            refine ih (fid :: visited) _ ?_ ?_ ?_ ?_ h
            · intro x hx
              rcases List.mem_append.mp hx with hx | hx
              · exact Relation.ReflTransGen.tail hfr
                  ⟨ps, hps, List.mem_of_mem_filter (List.mem_reverse.mp hx)⟩
              · exact hs x (List.mem_cons_of_mem _ hx)
            · intro v hv2
              rcases List.mem_cons.mp hv2 with rfl | h2
              · exact hr
              · exact hne v h2
            · intro v hv2 p hp
              rcases List.mem_cons.mp hv2 with heq | h2
              · rw [heq] at hp
                obtain ⟨ps2, hps2, hpmem⟩ := hp
                rw [hps] at hps2
                injection hps2 with he
                subst he
                by_cases hpv : p ∈ fid :: visited
                · exact Or.inl hpv
                · refine Or.inr (List.mem_append.mpr (Or.inl ?_))
                  rw [List.mem_reverse]
                  exact List.mem_filter.mpr ⟨hpmem, by simpa using hpv⟩
              · rcases hcl v h2 p hp with h3 | h3
                · exact Or.inl (List.mem_cons_of_mem _ h3)
                · rcases List.mem_cons.mp h3 with rfl | h4
                  · exact Or.inl (List.mem_cons_self _ _)
                  · exact Or.inr (List.mem_append.mpr (Or.inr h4))
            · rcases hn with h1 | h1
              · exact Or.inl (List.mem_cons_of_mem _ h1)
              · rcases List.mem_cons.mp h1 with rfl | h2
                · exact Or.inl (List.mem_cons_self _ _)
                · exact Or.inr (List.mem_append.mpr (Or.inr h2))

lemma initFuel_bound (g : DriveGraph) (n : String) :
    ([n] : List String).length + pendingWeight g [] ≤ initFuel g := by
  rw [pendingWeight_nil, initFuel]
  simp

/-- Claim C2: is_under_playground returns true only when the queried node
    is the root or reaches it by parent edges (sound, never true on a
    failed proof); when every parent lookup along reachable non-root nodes
    succeeds, it returns true exactly when such an ancestor path exists;
    and the moment a parent lookup fails the loop answers false at once,
    without exploring any other branch still on the stack. -/
theorem claim_C2_ancestry_validator (g : DriveGraph) (n r : String) :
    (is_under_playground g n r = true → Reaches g n r)
    ∧ ((∀ x, Reaches g n x → x ≠ r → (parentsOf g x).isSome = true) →
        (is_under_playground g n r = true ↔ Reaches g n r))
    ∧ (∀ (fuel : Nat) (visited rest : List String) (fid : String),
        fid ∉ visited → fid ≠ r → parentsOf g fid = none →
        isUnderLoop g r (fuel + 1) visited (fid :: rest) = some false) := by
  have hstart : ∀ x ∈ ([n] : List String), Reaches g n x := by
    intro x hx
    rcases List.mem_cons.mp hx with heq | h2
    · rw [heq]
      exact Relation.ReflTransGen.refl
    · exact absurd h2 (List.not_mem_nil x)
  have hsound : is_under_playground g n r = true → Reaches g n r := by
    intro h
    unfold is_under_playground at h
    obtain ⟨b, hb⟩ := isUnderLoop_isSome g r (initFuel g) [] [n] (initFuel_bound g n)
    rw [hb] at h
    simp only [Option.getD_some] at h
    rw [h] at hb
    exact isUnderLoop_true_reaches g n r _ [] [n] hstart hb
  refine ⟨hsound, ?_, ?_⟩
  · intro htot
    refine ⟨hsound, ?_⟩
    intro hreach
    obtain ⟨b, hb⟩ := isUnderLoop_isSome g r (initFuel g) [] [n] (initFuel_bound g n)
    cases b with
    | false =>
      have := isUnderLoop_false_not_reaches g n r htot (initFuel g) [] [n]
        hstart (fun v hv => absurd hv (List.not_mem_nil v))
        (fun v hv => absurd hv (List.not_mem_nil v))
        (Or.inr (List.mem_cons_self _ _)) hb
      exact absurd hreach this
    | true =>
      unfold is_under_playground
      rw [hb]
      rfl
  · intro fuel visited rest fid h1 h2 h3
    rw [isUnderLoop_cons, if_neg h1, if_neg h2, h3]

/-- Claim C3: on every finite parent-link store, cyclic or not, the
    traversal of is_under_playground started with its initial fuel always
    terminates with a definite boolean (the fuel bound is never hit), the
    function returns that boolean, and whenever no ancestor path reaches
    the root — in particular on a cyclic ancestor chain that never reaches
    it — the returned value is false. -/
theorem claim_C3_termination (g : DriveGraph) (n r : String) :
    ∃ b, isUnderLoop g r (initFuel g) [] [n] = some b
      ∧ is_under_playground g n r = b
      ∧ (¬ Reaches g n r → b = false) := by
  obtain ⟨b, hb⟩ := isUnderLoop_isSome g r (initFuel g) [] [n] (initFuel_bound g n)
  refine ⟨b, hb, ?_, ?_⟩
  · unfold is_under_playground
    rw [hb]
    rfl
  · intro hnr
    cases b with
    | false => rfl
    | true =>
      refine absurd (isUnderLoop_true_reaches g n r _ [] [n] ?_ hb) hnr
      intro x hx
      rcases List.mem_cons.mp hx with heq | h2
      · rw [heq]
        exact Relation.ReflTransGen.refl
      · exact absurd h2 (List.not_mem_nil x)

lemma gW1_reach_mem : ∀ x, Reaches gW1 ("a") x → x = "a" ∨ x = "r" := by
  intro x hx
  have hmem := reaches_mem_closed gW1 ["a", "r"] ?_ ("a") x (by simp) hx
  · simpa using hmem
  · intro v hv p hp
    obtain ⟨ps, hps, hpm⟩ := hp
    simp only [List.mem_cons, List.mem_singleton] at hv
    rcases hv with rfl | hv
    · have he : parentsOf gW1 ("a") = some ["r"] := by decide
      rw [he] at hps
      injection hps with he2
      subst he2
      simp only [List.mem_singleton] at hpm
      simp [hpm]
    · rcases hv with rfl | hv
      · have he : parentsOf gW1 ("r") = none := by decide
        rw [he] at hps
        cases hps
      · exact absurd hv (List.not_mem_nil v)

lemma gW1_total : ∀ x, Reaches gW1 ("a") x → x ≠ "r" →
    (parentsOf gW1 x).isSome = true := by
  intro x hx hne
  rcases gW1_reach_mem x hx with rfl | rfl
  · decide
  · exact absurd rfl hne

lemma gW1_reach : Reaches gW1 ("a") ("r") :=
  Relation.ReflTransGen.single ⟨["r"], by decide, by decide⟩

lemma gW3_not_reach : ¬ Reaches gW3 ("a") ("r") := by
  intro h
  have hmem := reaches_mem_closed gW3 ["a", "b"] ?_ ("a") ("r") (by simp) h
  · exact absurd hmem (by decide)
  · intro v hv p hp
    obtain ⟨ps, hps, hpm⟩ := hp
    simp only [List.mem_cons, List.mem_singleton] at hv
    rcases hv with rfl | hv
    · have he : parentsOf gW3 ("a") = some ["b"] := by decide
      rw [he] at hps
      injection hps with he2
      subst he2
      simp only [List.mem_singleton] at hpm
      simp [hpm]
    · rcases hv with rfl | hv
      · have he : parentsOf gW3 ("b") = some ["a"] := by decide
        rw [he] at hps
        injection hps with he2
        subst he2
        simp only [List.mem_singleton] at hpm
        simp [hpm]
      · exact absurd hv (List.not_mem_nil v)

/-- Witness for claim C2: on the store where file a has the root r as its
    only parent, the validator accepts a; and on the empty store, where
    the very first parent lookup fails, the loop answers false at once. -/
theorem claim_C2_witness :
    is_under_playground gW1 ("a") ("r") = true
    ∧ isUnderLoop gW2 ("r") 7 [] [("x")] = some false := by
  constructor
  · exact ((claim_C2_ancestry_validator gW1 ("a") ("r")).2.1 gW1_total).mpr gW1_reach
  · exact (claim_C2_ancestry_validator gW2 ("x") ("r")).2.2 6 [] [] ("x")
      (List.not_mem_nil _) (by decide) (by decide)

/-- Witness for claim C3: on the two-node parent cycle that never reaches
    the root, the validator terminates and answers false. -/
theorem claim_C3_witness : is_under_playground gW3 ("a") ("r") = false := by
  obtain ⟨b, _, hiu, himp⟩ := claim_C3_termination gW3 ("a") ("r")
  rw [hiu, himp gW3_not_reach]

lemma get_api_key_ok (cfgMsg key : String) (hks : pyStrip key = key)
    (hk : key ≠ "") : get_api_key cfgMsg (some key) = Except.ok key := by
  unfold get_api_key orEmpty
  rw [hks, if_neg hk]

lemma require_api_key_ok_key (cfgMsg key : String)
    (x_api_key authorization : Option String)
    (hks : pyStrip key = key) (hk : key ≠ "") :
    require_api_key cfgMsg (some key) x_api_key authorization =
      if presentedKey x_api_key authorization = key then Except.ok ()
      else Except.error HErr.unauthorized := by
  unfold require_api_key
  rw [get_api_key_ok cfgMsg key hks hk]

lemma presentedKey_some (s : String) (authorization : Option String) :
    presentedKey (some s) authorization =
      if s = "" then bearerOf authorization else s := rfl

lemma presentedKey_none (authorization : Option String) :
    presentedKey none authorization = bearerOf authorization := rfl

/-- Claim C4: with a configured (stripped, non-empty) secret, the
    authenticator succeeds exactly when the presented secret — the direct
    header if present and non-empty, else the deprefixed bearer value — is
    non-empty and equals the configured secret; the correct secret
    succeeds via the direct carrier with any authorization header and via
    the bearer carrier alone, and a request with both headers missing is
    rejected with the authentication error. -/
theorem claim_C4_authenticator (cfgMsg key : String)
    (x_api_key authorization : Option String)
    (hks : pyStrip key = key) (hk : key ≠ "") :
    (require_api_key cfgMsg (some key) x_api_key authorization = Except.ok ()
      ↔ presentedKey x_api_key authorization = key
        ∧ presentedKey x_api_key authorization ≠ "")
    ∧ (require_api_key cfgMsg (some key) (some key) authorization
        = Except.ok ())
    ∧ (bearerOf authorization = key →
        require_api_key cfgMsg (some key) none authorization = Except.ok ())
    ∧ (require_api_key cfgMsg (some key) none none
        = Except.error HErr.unauthorized) := by
  refine ⟨?_, ?_, ?_, ?_⟩
  · rw [require_api_key_ok_key cfgMsg key x_api_key authorization hks hk]
    constructor
    · intro h
      by_cases hp : presentedKey x_api_key authorization = key
      · exact ⟨hp, by rw [hp]; exact hk⟩
      · rw [if_neg hp] at h
        cases h
    · rintro ⟨hp, _⟩
      rw [if_pos hp]
  · rw [require_api_key_ok_key cfgMsg key (some key) authorization hks hk]
    rw [presentedKey_some, if_neg hk, if_pos rfl]
  · intro hb
    rw [require_api_key_ok_key cfgMsg key none authorization hks hk]
    rw [presentedKey_none, if_pos hb]
  · rw [require_api_key_ok_key cfgMsg key none none hks hk]
    have hp : presentedKey none none = "" := by decide
    rw [if_neg (by rw [hp]; exact fun h => hk h.symm)]

/-- Witness for claim C4 with the secret s3cret: the direct carrier and
    the bearer carrier both succeed, and a request with no headers is
    rejected. -/
theorem claim_C4_witness :
    require_api_key bridgeKeyMsg (some ("s3cret")) (some ("s3cret")) none
      = Except.ok ()
    ∧ require_api_key bridgeKeyMsg (some ("s3cret")) none
        (some ("Bearer s3cret")) = Except.ok ()
    ∧ require_api_key bridgeKeyMsg (some ("s3cret")) none none
      = Except.error HErr.unauthorized :=
  ⟨(claim_C4_authenticator bridgeKeyMsg ("s3cret") none none
      (by decide) (by decide)).2.1,
    (claim_C4_authenticator bridgeKeyMsg ("s3cret") none
      (some ("Bearer s3cret")) (by decide) (by decide)).2.2.1 (by decide),
    (claim_C4_authenticator bridgeKeyMsg ("s3cret") none none
      (by decide) (by decide)).2.2.2⟩

/-- Claim C10: the direct secret header takes precedence: a non-empty
    direct header that differs from the configured secret is rejected
    whatever the authorization header carries, and the bearer value is
    compared only when the direct header is absent or empty. -/
theorem claim_C10_header_precedence (cfgMsg key s : String)
    (authorization : Option String)
    (hks : pyStrip key = key) (hk : key ≠ "") :
    (s ≠ "" → s ≠ key →
      require_api_key cfgMsg (some key) (some s) authorization
        = Except.error HErr.unauthorized)
    ∧ (require_api_key cfgMsg (some key) none authorization
        = if bearerOf authorization = key then Except.ok ()
          else Except.error HErr.unauthorized)
    ∧ (require_api_key cfgMsg (some key) (some ("")) authorization
        = if bearerOf authorization = key then Except.ok ()
          else Except.error HErr.unauthorized) := by
  refine ⟨?_, ?_, ?_⟩
  · intro hs hne
    rw [require_api_key_ok_key cfgMsg key (some s) authorization hks hk]
    rw [presentedKey_some, if_neg hs]
    rw [if_neg hne]
  · rw [require_api_key_ok_key cfgMsg key none authorization hks hk]
    rw [presentedKey_none]
  · rw [require_api_key_ok_key cfgMsg key (some ("")) authorization hks hk]
    rw [presentedKey_some, if_pos rfl]

/-- Witness for claim C10: a wrong direct header is rejected even though
    the authorization header carries the correct bearer secret. -/
theorem claim_C10_witness :
    require_api_key bridgeKeyMsg (some ("k")) (some ("wrong"))
      (some ("Bearer k")) = Except.error HErr.unauthorized :=
  (claim_C10_header_precedence bridgeKeyMsg ("k") ("wrong")
    (some ("Bearer k")) (by decide) (by decide)).1 (by decide) (by decide)

/-- Claim C6, amended: a missing or blank configured secret is not checked
    at startup; the handlers still serve requests, and every evaluation of
    the authenticator then fails with the configuration error (a 500, not
    a 401), never with success — so the missing secret is never read as
    accepting a caller, but the failure is per-request, not
    startup-fatal. -/
theorem claim_C6_missing_key (cfgMsg : String)
    (envKey x_api_key authorization : Option String)
    (h : pyStrip (orEmpty envKey) = "") :
    require_api_key cfgMsg envKey x_api_key authorization
      = Except.error (HErr.serverError cfgMsg)
    ∧ ∀ u, require_api_key cfgMsg envKey x_api_key authorization
        ≠ Except.ok u := by
  have hget : get_api_key cfgMsg envKey
      = Except.error (HErr.serverError cfgMsg) := by
    unfold get_api_key
    rw [if_pos h]
  have hmain : require_api_key cfgMsg envKey x_api_key authorization
      = Except.error (HErr.serverError cfgMsg) := by
    unfold require_api_key
    rw [hget]
  refine ⟨hmain, ?_⟩
  intro u hc
  rw [hmain] at hc
  cases hc

/-- Counterexample for claim C6 as stated: with no secret configured the
    service still starts and handles a run request, producing a
    per-request 500 configuration error — it does not refuse to serve, and
    the failure is per-request rather than startup-fatal. -/
theorem claim_C6_counterexample :
    run_command envNoKey bodyRun (some ("anything")) none
      = Except.error (HErr.serverError bridgeKeyMsg) := by decide

/-- Witness for claim C6: with the secret unset, the authenticator fails
    with the configuration error even for a caller presenting a value. -/
theorem claim_C6_witness :
    require_api_key bridgeKeyMsg none (some ("k")) none
      = Except.error (HErr.serverError bridgeKeyMsg) :=
  (claim_C6_missing_key bridgeKeyMsg none (some ("k")) none (by decide)).1

/-- Claim C9: on an authenticated run request, a disabled run flag yields
    the forbidden error; with the flag enabled and no cwd override, a
    command completing within the timeout is reported with its stdout,
    stderr and exit status verbatim (any exit status, as a success), and
    a timeout yields the timeout error. -/
theorem claim_C9_run_command (env : BridgeEnv) (body : RunBody)
    (x_api_key authorization : Option String)
    (hauth : require_api_key bridgeKeyMsg env.apiKey x_api_key authorization
      = Except.ok ()) :
    (allow_run env.allowRunFlag = false →
      run_command env body x_api_key authorization
        = Except.error (HErr.forbidden runDisabledMsg))
    ∧ (allow_run env.allowRunFlag = true → pyStrip body.cwd = "" →
        (∀ o e c, env.exec body.command env.root = ExecOutcome.completed o e c →
          run_command env body x_api_key authorization = Except.ok ⟨o, e, c⟩)
        ∧ (env.exec body.command env.root = ExecOutcome.timedOut →
            run_command env body x_api_key authorization
              = Except.error HErr.timeout)) := by
  constructor
  · intro hoff
    simp only [run_command, hauth, hoff, if_true, if_pos rfl]
  · intro hon hcwd
    constructor
    · intro o e c hexec
      simp only [run_command, hauth, hon, hcwd, hexec, Bool.true_eq_false,
        if_false, eq_self_iff_true, if_true]
    · intro hexec
      simp only [run_command, hauth, hon, hcwd, hexec, Bool.true_eq_false,
        if_false, eq_self_iff_true, if_true]

/-- Witness for claim C9: with run enabled a completed command with exit
    status 3 is reported as a success, and with run disabled the same
    authenticated request is forbidden. -/
theorem claim_C9_witness :
    run_command envRun bodyRun (some ("k")) none
      = Except.ok ⟨("hi"), (""), 3⟩
    ∧ run_command envRunOff bodyRun (some ("k")) none
      = Except.error (HErr.forbidden runDisabledMsg) := by
  constructor
  · exact ((claim_C9_run_command envRun bodyRun (some ("k")) none
      (by decide)).2 (by decide) (by decide)).1 ("hi") ("") 3 rfl
  · exact (claim_C9_run_command envRunOff bodyRun (some ("k")) none
      (by decide)).1 (by decide)

lemma bool_not_true {b : Bool} (h : ¬ b = true) : b = false := by
  cases b
  · rfl
  · exact absurd rfl h

lemma hasUrlB_true_iff (body : WriteBody) :
    hasUrlB body = true ↔ suppliesUrl body := by
  unfold hasUrlB suppliesUrl
  simp

lemma require_api_key_error (cfgMsg : String) (envKey x a : Option String)
    (e : HErr)
    (h : require_api_key cfgMsg envKey x a = Except.error e) :
    e = HErr.unauthorized ∨ e = HErr.serverError cfgMsg := by
  cases hg : get_api_key cfgMsg envKey with
  | error e2 =>
    have hred : require_api_key cfgMsg envKey x a = Except.error e2 := by
      unfold require_api_key
      rw [hg]
    rw [hred] at h
    injection h with h2
    subst h2
    unfold get_api_key at hg
    by_cases hk : pyStrip (orEmpty envKey) = ""
    · rw [if_pos hk] at hg
      injection hg with hg2
      exact Or.inr hg2.symm
    · rw [if_neg hk] at hg
      cases hg
  | ok key =>
    have hred : require_api_key cfgMsg envKey x a =
        (if presentedKey x a = key then Except.ok ()
         else Except.error HErr.unauthorized) := by
      unfold require_api_key
      rw [hg]
    rw [hred] at h
    by_cases hp : presentedKey x a = key
    · rw [if_pos hp] at h
      cases h
    · rw [if_neg hp] at h
      injection h with h2
      exact Or.inl h2.symm

lemma mediaOf_none_eq (body : WriteBody) (f : String → Bool)
    (hu : body.file_url = none) :
    mediaOf body f =
      (if body.content.isSome then
        Except.ok (some (Media.fromText (orEmpty body.content)))
      else Except.ok none) := by
  unfold mediaOf
  rw [hu]

lemma mediaOf_blank_eq (body : WriteBody) (f : String → Bool)
    (hu : body.file_url = some ("")) :
    mediaOf body f =
      (if body.content.isSome then
        Except.ok (some (Media.fromText (orEmpty body.content)))
      else Except.ok none) := by
  unfold mediaOf
  rw [hu]
  simp

lemma mediaOf_url_eq (body : WriteBody) (f : String → Bool) (u : String)
    (hu : body.file_url = some u) (hne : u ≠ "") :
    mediaOf body f =
      (if f u then Except.ok (some (Media.fromUrl u))
       else Except.error (HErr.badGateway fetchFailMsg)) := by
  unfold mediaOf
  rw [hu]
  simp only [if_neg hne]

lemma mediaOf_error (body : WriteBody) (f : String → Bool) (e : HErr)
    (h : mediaOf body f = Except.error e) : e = HErr.badGateway fetchFailMsg := by
  cases hu : body.file_url with
  | none =>
    rw [mediaOf_none_eq body f hu] at h
    by_cases hc : body.content.isSome = true
    · rw [if_pos hc] at h
      cases h
    · rw [if_neg hc] at h
      cases h
  | some u =>
    by_cases hne : u = ""
    · subst hne
      rw [mediaOf_blank_eq body f hu] at h
      by_cases hc : body.content.isSome = true
      · rw [if_pos hc] at h
        cases h
      · rw [if_neg hc] at h
        cases h
    · rw [mediaOf_url_eq body f u hu hne] at h
      by_cases hf : f u = true
      · rw [if_pos hf] at h
        cases h
      · rw [if_neg hf] at h
        injection h with h2
        exact h2.symm

lemma validShape_conds (body : WriteBody) (hval : validShapeSpec body) :
    ¬ ((!body.content.isSome && !(hasUrlB body) && !(emptyAppB body)) = true)
    ∧ ¬ ((body.content.isSome && hasUrlB body) = true) := by
  rcases hval with ⟨hc, hf⟩ | ⟨hc, hf⟩ | ⟨hc, hf, hm⟩
  · have hcb : body.content.isSome = true := hc
    have hfb : hasUrlB body = false :=
      bool_not_true (fun h => hf ((hasUrlB_true_iff body).mp h))
    constructor
    · rw [hcb]
      simp
    · rw [hcb, hfb]
      simp
  · have hcb : body.content.isSome = false := bool_not_true hc
    have hfb : hasUrlB body = true := (hasUrlB_true_iff body).mpr hf
    constructor
    · rw [hfb]
      simp
    · rw [hcb]
      simp
  · have hcb : body.content.isSome = false := bool_not_true hc
    have hfb : hasUrlB body = false :=
      bool_not_true (fun h => hf ((hasUrlB_true_iff body).mp h))
    have hab : emptyAppB body = true := by
      unfold emptyAppB
      rw [hcb, hfb]
      simp [hm]
    constructor
    · rw [hab]
      simp
    · rw [hcb]
      simp

lemma drive_write_reduced (env : DriveEnv) (body : WriteBody)
    (x a : Option String)
    (h1 : ¬ ((!body.content.isSome && !(hasUrlB body) && !(emptyAppB body)) = true))
    (h2 : ¬ ((body.content.isSome && hasUrlB body) = true)) :
    drive_write_file env body x a =
      (match require_api_key driveKeyMsg env.apiKey x a with
       | Except.error e => (Except.error e, [])
       | Except.ok _ =>
         if parentOf env body ≠ env.playgroundId
             ∧ is_under_playground env.graph (parentOf env body)
                 env.playgroundId = false then
           (Except.error (HErr.forbidden notInPlaygroundMsg), [])
         else
           match mediaOf body env.fetchOk with
           | Except.error e => (Except.error e, [])
           | Except.ok media =>
             match env.existing (parentOf env body) body.name with
             | some fid =>
               match media with
               | none => (Except.error (HErr.conflict conflictMsg), [])
               | some m =>
                 (Except.ok ⟨fid, updatedStr⟩,
                   [DriveEffect.updateMeta fid body.name body.mime_type,
                     DriveEffect.updateMedia fid m])
             | none =>
               (Except.ok ⟨env.createdId, createdStr⟩,
                 [DriveEffect.createFile body.name body.mime_type
                   (parentOf env body) media])) := by
  unfold drive_write_file
  rw [if_neg h1, if_neg h2]

lemma drive_write_no_badRequest (env : DriveEnv) (body : WriteBody)
    (x a : Option String) (hval : validShapeSpec body) (m : String) :
    (drive_write_file env body x a).1 ≠ Except.error (HErr.badRequest m) := by
  obtain ⟨h1, h2⟩ := validShape_conds body hval
  rw [drive_write_reduced env body x a h1 h2]
  cases hreq : require_api_key driveKeyMsg env.apiKey x a with
  | error e =>
    simp only [hreq]
    intro hc
    injection hc with hc2
    rcases require_api_key_error driveKeyMsg env.apiKey x a e hreq with rfl | rfl
    · cases hc2
    · cases hc2
  | ok u =>
    cases u
    simp only [hreq]
    by_cases hconf : parentOf env body ≠ env.playgroundId
        ∧ is_under_playground env.graph (parentOf env body) env.playgroundId = false
    · rw [if_pos hconf]
      intro hc
      injection hc with hc2
      cases hc2
    · rw [if_neg hconf]
      cases hmed : mediaOf body env.fetchOk with
      | error e =>
        simp only [hmed]
        intro hc
        injection hc with hc2
        have := mediaOf_error body env.fetchOk e hmed
        rw [this] at hc2
        cases hc2
      | ok media =>
        simp only [hmed]
        cases hex : env.existing (parentOf env body) body.name with
        | some fid =>
          simp only [hex]
          cases media with
          | none =>
            intro hc
            injection hc with hc2
            cases hc2
          | some mm =>
            intro hc
            cases hc
        | none =>
          simp only [hex]
          intro hc
          cases hc

/-- Claim C7: the write handler produces a validation (400) error exactly
    when the body fails the three-way shape classification — both content
    sources supplied, or neither supplied with a content type outside the
    document/spreadsheet/presentation set — and it does so for every
    environment, before authentication, confinement or any Drive call
    (the effect list is empty); a body in exactly one accepted shape never
    yields a validation error. -/
theorem claim_C7_write_validation (env : DriveEnv) (body : WriteBody)
    (x_api_key authorization : Option String) :
    ((∃ m, (drive_write_file env body x_api_key authorization).1
        = Except.error (HErr.badRequest m)) ↔ ¬ validShapeSpec body)
    ∧ (body.content.isSome = true → hasUrlB body = true →
        drive_write_file env body x_api_key authorization
          = (Except.error (HErr.badRequest onlyOneMsg), []))
    ∧ (body.content.isSome = false → hasUrlB body = false →
        ¬ body.mime_type ∈ GOOGLE_APP_MIME_TYPES →
        drive_write_file env body x_api_key authorization
          = (Except.error (HErr.badRequest provideMsg), [])) := by
  have hboth : ∀ (_ : body.content.isSome = true) (_ : hasUrlB body = true),
      drive_write_file env body x_api_key authorization
        = (Except.error (HErr.badRequest onlyOneMsg), []) := by
    intro hc hf
    unfold drive_write_file
    rw [if_neg (by rw [hc]; simp), if_pos (by rw [hc, hf]; rfl)]
  have hneither : ∀ (_ : body.content.isSome = false)
      (_ : hasUrlB body = false)
      (_ : ¬ body.mime_type ∈ GOOGLE_APP_MIME_TYPES),
      drive_write_file env body x_api_key authorization
        = (Except.error (HErr.badRequest provideMsg), []) := by
    intro hc hf hm
    have hab : emptyAppB body = false := by
      unfold emptyAppB
      rw [hc, hf]
      simp [hm]
    unfold drive_write_file
    rw [if_pos (by rw [hc, hf, hab]; rfl)]
  refine ⟨?_, hboth, hneither⟩
  constructor
  · rintro ⟨m, hm⟩ hval
    exact drive_write_no_badRequest env body x_api_key authorization hval m hm
  · intro hval
    by_cases hc : body.content.isSome = true
    · by_cases hf : hasUrlB body = true
      · exact ⟨onlyOneMsg, by rw [hboth hc hf]⟩
      · exact absurd (Or.inl ⟨hc, fun hs => hf ((hasUrlB_true_iff body).mpr hs)⟩) hval
    · have hcb : body.content.isSome = false := bool_not_true hc
      by_cases hf : hasUrlB body = true
      · exact absurd (Or.inr (Or.inl ⟨hc, (hasUrlB_true_iff body).mp hf⟩)) hval
      · have hfb : hasUrlB body = false := bool_not_true hf
        by_cases hm2 : body.mime_type ∈ GOOGLE_APP_MIME_TYPES
        · exact absurd (Or.inr (Or.inr
            ⟨hc, fun hs => hf ((hasUrlB_true_iff body).mpr hs), hm2⟩)) hval
        · exact ⟨provideMsg, by rw [hneither hcb hfb hm2]⟩

/-- Witness for claim C7: a body with both content sources is rejected
    with the mutual-exclusion validation error, and a body with neither
    source and a plain content type with the missing-source validation
    error, both with no Drive effect. -/
theorem claim_C7_witness :
    drive_write_file envW bodyBoth (some ("secret")) none
      = (Except.error (HErr.badRequest onlyOneMsg), [])
    ∧ drive_write_file envW bodyNoSrc (some ("secret")) none
      = (Except.error (HErr.badRequest provideMsg), []) :=
  ⟨(claim_C7_write_validation envW bodyBoth (some ("secret")) none).2.1
      (by decide) (by decide),
    (claim_C7_write_validation envW bodyNoSrc (some ("secret")) none).2.2
      (by decide) (by decide) (by decide)⟩

/-- Counterexample for claim C5 as stated: an unauthenticated write
    request with a malformed body (both content sources) is rejected with
    the validation error, not the authentication error — body validation
    runs before require_api_key in the write handler. -/
theorem claim_C5_counterexample :
    drive_write_file envW bodyBoth (some ("wrong")) none
      = (Except.error (HErr.badRequest onlyOneMsg), [])
    ∧ (drive_write_file envW bodyBoth (some ("wrong")) none).1
      ≠ Except.error HErr.unauthorized := by
  constructor
  · decide
  · decide

/-- Claim C5, amended: in the write handler the three-way body-shape
    validation runs before authentication, so an unauthenticated request
    with a malformed body receives the validation error; for every request
    that passes shape validation, an authentication failure is returned
    before the confinement check and before any Drive access, with no
    effect performed. -/
theorem claim_C5_auth_order (env : DriveEnv) (body : WriteBody)
    (x_api_key authorization : Option String) (e : HErr)
    (hval : validShapeSpec body)
    (hreq : require_api_key driveKeyMsg env.apiKey x_api_key authorization
      = Except.error e) :
    drive_write_file env body x_api_key authorization
      = (Except.error e, []) := by
  obtain ⟨h1, h2⟩ := validShape_conds body hval
  rw [drive_write_reduced env body x_api_key authorization h1 h2]
  simp only [hreq]

/-- Witness for claim C5: a shape-valid body with a wrong direct header is
    rejected with the authentication error and no effect. -/
theorem claim_C5_witness :
    drive_write_file envW bodyInline (some ("wrong")) none
      = (Except.error HErr.unauthorized, []) :=
  claim_C5_auth_order envW bodyInline (some ("wrong")) none
    HErr.unauthorized (by decide) (by decide)

/-- Counterexample for claim C8 as stated: a write request with no content
    source and a plain (non-exemptible) content type, whose target folder
    already holds a same-name file, fails with the validation error rather
    than the Conflict error. -/
theorem claim_C8_counterexample :
    drive_write_file envW8 bodyNoSrc (some ("secret")) none
      = (Except.error (HErr.badRequest provideMsg), [])
    ∧ (drive_write_file envW8 bodyNoSrc (some ("secret")) none).1
      ≠ Except.error (HErr.conflict conflictMsg) := by
  constructor
  · decide
  · decide

/-- Claim C8, amended: for every authenticated write request that supplies
    no content source (content absent, file_url absent or empty) with a
    document, spreadsheet or presentation content type — the only
    no-source shape that passes validation — whose confinement check
    passes and whose target folder holds a same-name non-trashed match,
    the handler fails with the Conflict error and performs no update or
    create effect; a no-source request with any other content type fails
    earlier with a validation error. -/
theorem claim_C8_conflict (env : DriveEnv) (body : WriteBody)
    (x_api_key authorization : Option String) (fid : String)
    (hc : body.content = none)
    (hu : body.file_url = none ∨ body.file_url = some (""))
    (hm : body.mime_type ∈ GOOGLE_APP_MIME_TYPES)
    (hauth : require_api_key driveKeyMsg env.apiKey x_api_key authorization
      = Except.ok ())
    (hconf : parentOf env body = env.playgroundId
      ∨ is_under_playground env.graph (parentOf env body) env.playgroundId
          = true)
    (hex : env.existing (parentOf env body) body.name = some fid) :
    drive_write_file env body x_api_key authorization
      = (Except.error (HErr.conflict conflictMsg), []) := by
  have hcb : body.content.isSome = false := by
    rw [hc]
    rfl
  have hfs : pyStrip (orEmpty body.file_url) = "" := by
    rcases hu with hu | hu <;> rw [hu] <;> decide
  have hfb : hasUrlB body = false := by
    unfold hasUrlB
    rw [hfs]
    simp
  have hab : emptyAppB body = true := by
    unfold emptyAppB
    rw [hcb, hfb]
    simp [hm]
  have h1 : ¬ ((!body.content.isSome && !(hasUrlB body) && !(emptyAppB body))
      = true) := by
    rw [hcb, hfb, hab]
    simp
  have h2 : ¬ ((body.content.isSome && hasUrlB body) = true) := by
    rw [hcb]
    simp
  have hmedia : mediaOf body env.fetchOk = Except.ok none := by
    rcases hu with hu | hu
    · rw [mediaOf_none_eq body env.fetchOk hu, hcb]
      simp
    · rw [mediaOf_blank_eq body env.fetchOk hu, hcb]
      simp
  have hconf2 : ¬ (parentOf env body ≠ env.playgroundId
      ∧ is_under_playground env.graph (parentOf env body) env.playgroundId
          = false) := by
    rintro ⟨hne, hfalse⟩
    rcases hconf with h | h
    · exact hne h
    · rw [h] at hfalse
      cases hfalse
  rw [drive_write_reduced env body x_api_key authorization h1 h2]
  simp only [hauth, if_neg hconf2, hmedia, hex]

/-- Witness for claim C8: a no-source document-type write into a folder
    already holding the same name yields the Conflict error and no
    effect. -/
theorem claim_C8_witness :
    drive_write_file envW8 bodyDoc (some ("secret")) none
      = (Except.error (HErr.conflict conflictMsg), []) :=
  claim_C8_conflict envW8 bodyDoc (some ("secret")) none ("f1") rfl
    (Or.inl rfl) (by decide) (by decide) (Or.inl (by decide)) (by decide)
